import Mathlib

/-!
Shallow embedding of `src/backend/main.py` (Nola Analytics minimal backend):
the schema cache (`get_table` / `TABLE_CACHE`), the predicate compiler
(`_apply_filter_clause`), and the `/query` endpoint's compilation pipeline
(grouping resolution, metric compilation, statement assembly, limit) together
with a reference relational semantics for the compiled statements.
-/

namespace Nola

/-- A scalar JSON-ish value as carried by a request body field. -/
inductive Scalar where
  | int (n : Int)
  | str (s : String)
  | bool (b : Bool)
  | null
deriving DecidableEq, Repr

/-- A request value: a scalar or a list of scalars (`f.value` has Python type
`Any`; the only structural distinction the code makes is `isinstance(..., list)`). -/
inductive Value where
  | scalar (s : Scalar)
  | list (vs : List Scalar)
deriving DecidableEq, Repr

/-- Model of `isinstance(f.value, list)`. -/
def Value.isList : Value → Bool
  | .list _ => true
  | .scalar _ => false

/-- Python `str()` applied to a scalar. -/
def Scalar.pyStr : Scalar → String
  | .int n => toString n
  | .str s => s
  | .bool b => if b then "True" else "False"
  | .null => "None"

/-- Python `str()` applied to a request value (used by the `like` branch). -/
def Value.pyStr : Value → String
  | .scalar s => s.pyStr
  | .list vs => "[" ++ String.intercalate ", " (vs.map Scalar.pyStr) ++ "]"

/-- Python `str.lower()` (ASCII range, which covers the operator and aggregate
names the dispatch compares against). -/
def pyLower (s : String) : String := String.mk (s.data.map Char.toLower)

/-- Model of `fastapi.HTTPException` as raised by the backend: a status code and a detail
message. -/
structure HTTPException where
  status_code : Nat
  detail : String
deriving DecidableEq, Repr

/-- Reflected table metadata (`sqlalchemy.Table`): the table name and its
ordered column names. -/
structure Table where
  name : String
  cols : List String
deriving DecidableEq, Repr

/-- Model of `tbl.c.get(name)`: the column if it exists on the table, else `None`.
A column is represented by its name. -/
def Table.getCol (tbl : Table) (c : String) : Option String :=
  if c ∈ tbl.cols then some c else none

/-- The `FilterItem` pydantic model: `column: str`, `op: str`, `value: Any`. -/
structure FilterItem where
  column : String
  op : String
  value : Value
deriving DecidableEq, Repr

/-- A compiled, parameter-bound boolean clause: the result of
`_apply_filter_clause`.  Each constructor keeps the filter value as a bound
parameter, structurally separate from any SQL text. -/
inductive Clause where
  | eqC (col : String) (v : Value)
  | neC (col : String) (v : Value)
  | gtC (col : String) (v : Value)
  | ltC (col : String) (v : Value)
  | geC (col : String) (v : Value)
  | leC (col : String) (v : Value)
  | inC (col : String) (vs : List Scalar)
  | likeC (col : String) (pat : String)
deriving DecidableEq, Repr

/-- Model of `_apply_filter_clause(tbl, f)`: validates the column, lowercases the
operator, dispatches to the comparison constructors; `in` demands a list value,
`like` coerces the value to a string; anything else raises 400. -/
def applyFilterClause (tbl : Table) (f : FilterItem) : Except HTTPException Clause :=
  match tbl.getCol f.column with
  | none => .error ⟨400, "Unknown column: " ++ f.column⟩
  | some col =>
    if pyLower f.op = "=" ∨ pyLower f.op = "eq" then .ok (.eqC col f.value)
    else if pyLower f.op = "!=" ∨ pyLower f.op = "ne" then .ok (.neC col f.value)
    else if pyLower f.op = ">" then .ok (.gtC col f.value)
    else if pyLower f.op = "<" then .ok (.ltC col f.value)
    else if pyLower f.op = ">=" then .ok (.geC col f.value)
    else if pyLower f.op = "<=" then .ok (.leC col f.value)
    else if pyLower f.op = "in" then
      match f.value with
      | .list vs => .ok (.inC col vs)
      | .scalar _ => .error ⟨400, "Value for 'in' must be a list"⟩
    else if pyLower f.op = "like" then .ok (.likeC col f.value.pyStr)
    else .error ⟨400, "Unsupported filter op: " ++ f.op⟩

/-- The literal SQL text a clause renders to, with a `?` placeholder where the
bound parameter is supplied out-of-band.  The text is built only from the
column name and the operator, never from the value. -/
def Clause.sqlText : Clause → String
  | .eqC col _ => col ++ " = ?"
  | .neC col _ => col ++ " != ?"
  | .gtC col _ => col ++ " > ?"
  | .ltC col _ => col ++ " < ?"
  | .geC col _ => col ++ " >= ?"
  | .leC col _ => col ++ " <= ?"
  | .inC col _ => col ++ " IN ?"
  | .likeC col _ => col ++ " LIKE ?"

/-- The bound parameters a clause carries (supplied to the driver out-of-band). -/
def Clause.params : Clause → List Value
  | .eqC _ v => [v]
  | .neC _ v => [v]
  | .gtC _ v => [v]
  | .ltC _ v => [v]
  | .geC _ v => [v]
  | .leC _ v => [v]
  | .inC _ vs => vs.map Value.scalar
  | .likeC _ p => [.scalar (.str p)]

/-- The `Metric` pydantic model: `op: str`, `column: Optional[str] = None`,
`alias: Optional[str] = None`. -/
structure Metric where
  op : String
  column : Option String := none
  label : Option String := none
deriving DecidableEq, Repr

/-- The `QueryRequest` pydantic model; `limit` defaults to `1000`. -/
structure QueryRequest where
  table : String
  group_by : Option (List String) := none
  metrics : Option (List Metric) := none
  filters : Option (List FilterItem) := none
  limit : Option Int := some 1000
deriving DecidableEq, Repr

/-- The database catalog visible to reflection: maps a table name to its
column list when the table exists. -/
def DB : Type := String → Option (List String)

/-- Process-wide schema-cache state: the `TABLE_CACHE` dict plus a counter of
reflection round-trips (database I/O operations performed on cache misses). -/
structure SchemaState where
  cache : List (String × Table)
  reflections : Nat

/-- Lookup in the cache association list (Python dict membership `name in TABLE_CACHE`). -/
def cacheLookup : List (String × Table) → String → Option Table
  | [], _ => none
  | (k, t) :: rest, n => if k = n then some t else cacheLookup rest n

/-- Model of `get_table(table_name)`: return the cached table on a hit; on a miss,
reflect from the catalog (one I/O round-trip), store the result, and return
it.  Reflection of an absent table raises, leaving the cache untouched (the
`TABLE_CACHE[table_name] = tbl` assignment is only reached on success). -/
def get_table (db : DB) (st : SchemaState) (name : String) :
    Except String Table × SchemaState :=
  match cacheLookup st.cache name with
  | some t => (.ok t, st)
  | none =>
    match db name with
    | none => (.error ("NoSuchTableError: " ++ name), st)
    | some cols =>
      let t : Table := ⟨name, cols⟩
      (.ok t, { cache := (name, t) :: st.cache, reflections := st.reflections + 1 })

/-- A resolved grouping specifier: a validated column reference, or a raw SQL
text fragment passed through verbatim (`text(g)`). -/
inductive GroupExpr where
  | col (c : String)
  | raw (t : String)
deriving DecidableEq, Repr

/-- Whether `sub` occurs at the head of `s`. -/
def leadMatch : List Char → List Char → Bool
  | [], _ => true
  | _ :: _, [] => false
  | a :: as, b :: bs => a == b && leadMatch as bs

/-- Whether `sub` occurs anywhere in `s`. -/
def subScan (sub : List Char) : List Char → Bool
  | [] => leadMatch sub []
  | c :: s' => leadMatch sub (c :: s') || subScan sub s'

/-- Python substring containment `sub in s`. -/
def strContains (s sub : String) : Bool := subScan sub.toList s.toList

/-- The raw-expression heuristic from the `/query` grouping loop:
`"(" in g or "::" in g or g.count(" ") > 0`. -/
def isRawGroup (g : String) : Bool :=
  strContains g "(" || strContains g "::" || strContains g " "

/-- One iteration of the grouping loop: raw specifiers pass through verbatim,
column references are validated against the table. -/
def resolveGroupSpec (tbl : Table) (g : String) : Except HTTPException GroupExpr :=
  if isRawGroup g then .ok (.raw g)
  else
    match tbl.getCol g with
    | none => .error ⟨400, "Unknown group_by column: " ++ g⟩
    | some c => .ok (.col c)

/-- A compiled aggregate expression.  `countCol` keeps the result of
`tbl.c.get(m.column)`, which may be `None` (the code builds
`func.count(None)`, i.e. `count(NULL)`, without validating the column). -/
inductive AggExpr where
  | countStar
  | countCol (target : Option String)
  | sumC (col : String)
  | avgC (col : String)
  | maxC (col : String)
  | minC (col : String)
deriving DecidableEq, Repr

/-- Python truthiness of `Optional[str]` (`None` and `""` are falsy). -/
def strTruthy : Option String → Bool
  | none => false
  | some s => s ≠ ""

/-- The aggregate-expression half of one metrics-loop iteration: dispatch on
the lowercased op, validating the column for `sum|avg|max|min` only. -/
def metricExpr (tbl : Table) (m : Metric) : Except HTTPException AggExpr :=
  if pyLower m.op = "count" then
    if strTruthy m.column then .ok (.countCol (tbl.getCol (m.column.getD "")))
    else .ok .countStar
  else
    if ¬ strTruthy m.column then .error ⟨400, "Metric " ++ m.op ++ " needs a column"⟩
    else
      match tbl.getCol (m.column.getD "") with
      | none => .error ⟨400, "Unknown metric column: " ++ m.column.getD ""⟩
      | some col =>
        if pyLower m.op = "sum" then .ok (.sumC col)
        else if pyLower m.op = "avg" then .ok (.avgC col)
        else if pyLower m.op = "max" then .ok (.maxC col)
        else if pyLower m.op = "min" then .ok (.minC col)
        else .error ⟨400, "Unsupported metric op: " ++ m.op⟩

/-- The select-list label of a metric:
`m.alias or f"{op}_{m.column or 'all'}"` (with Python truthiness). -/
def metricLabel (m : Metric) : String :=
  if strTruthy m.label then m.label.getD ""
  else pyLower m.op ++ "_" ++ (if strTruthy m.column then m.column.getD "" else "all")

/-- One iteration of the metrics loop (lines 104–125): build the aggregate
expression, then attach the label. -/
def compileMetric (tbl : Table) (m : Metric) : Except HTTPException (AggExpr × String) :=
  match metricExpr tbl m with
  | .error e => .error e
  | .ok expr => .ok (expr, metricLabel m)

/-- The compiled statement assembled by `/query`: select list =
`groupCols ++ selCols` (select aliases attached), conjoined filter clauses,
`GROUP BY` over exactly the grouping expressions, and an optional limit. -/
structure Stmt where
  fromTable : String
  groupCols : List GroupExpr
  selCols : List (AggExpr × String)
  whereClauses : List Clause
  limitClause : Option Int
deriving DecidableEq, Repr

/-- First-error-wins iteration, as a Python `for` loop / list comprehension
over a body that may raise. -/
def exMapM (f : α → Except HTTPException β) : List α → Except HTTPException (List β)
  | [] => .ok []
  | a :: l =>
    match f a with
    | .error e => .error e
    | .ok b =>
      match exMapM f l with
      | .error e => .error e
      | .ok bs => .ok (b :: bs)

/-- Python truthiness of `Optional[int]` (`None` and `0` are falsy). -/
def intTruthy : Option Int → Bool
  | none => false
  | some n => n ≠ 0

/-- The compilation pipeline of the `/query` endpoint, up to (but excluding)
execution: resolve the table (reflection failure becomes a 400), resolve
grouping specifiers, compile metrics (synthesizing the implicit
`count` aliased `"count"` when the select list would be empty), compile
filters, and attach the limit when truthy. -/
def compileQuery (db : DB) (st : SchemaState) (req : QueryRequest) :
    Except HTTPException Stmt × SchemaState :=
  match get_table db st req.table with
  | (.error e, st') => (.error ⟨400, "Table not found or reflection error: " ++ e⟩, st')
  | (.ok tbl, st') =>
    let res : Except HTTPException Stmt :=
      match exMapM (resolveGroupSpec tbl) (req.group_by.getD []) with
      | .error e => .error e
      | .ok groupCols =>
        match exMapM (compileMetric tbl) (req.metrics.getD []) with
        | .error e => .error e
        | .ok selCols0 =>
          let selCols := if selCols0.isEmpty then [(.countStar, "count")] else selCols0
          match exMapM (applyFilterClause tbl) (req.filters.getD []) with
          | .error e => .error e
          | .ok clauses =>
            .ok { fromTable := req.table
                  groupCols := groupCols
                  selCols := selCols
                  whereClauses := clauses
                  limitClause := if intTruthy req.limit then req.limit else none }
    (res, st')

/-- The `/query` endpoint: compile, then hand the statement to the executor
(the database session).  A compilation failure is raised before any statement
reaches the executor; an executor failure surfaces as a 500. -/
def queryEndpoint {α : Type} (db : DB) (st : SchemaState)
    (execStmt : Stmt → Except String α) (req : QueryRequest) :
    Except HTTPException α × SchemaState :=
  match compileQuery db st req with
  | (.error e, st') => (.error e, st')
  | (.ok stmt, st') =>
    match execStmt stmt with
    | .error msg => (.error ⟨500, msg⟩, st')
    | .ok rows => (.ok rows, st')

/-! ### Reference relational semantics for compiled statements

The backend delegates execution to the database.  The following evaluator is
the reference semantics of a `Stmt` over an in-memory list of rows: filter by
the conjoined clauses, partition by the grouping key, evaluate each aggregate
per group, then apply the limit.  Statements with raw grouping fragments have
no defined semantics here (the fragment is opaque SQL text). -/

/-- A database row: an association of column names to scalar values. -/
def Row : Type := List (String × Scalar)

/-- The value of a column in a row (`none` when the column is absent). -/
def Row.get (r : Row) (c : String) : Option Scalar :=
  match r with
  | [] => none
  | (k, v) :: rest => if k = c then some v else Row.get rest c

/-- Three-valued-free comparison of scalars: defined within one type, `none`
across types or against `null`. -/
def scalarCmp : Scalar → Scalar → Option Ordering
  | .int m, .int n => some (compare m n)
  | .str s, .str t => some (compare s t)
  | .bool a, .bool b => some (compare a b)
  | _, _ => none

/-- SQL `LIKE` pattern matching: `%` matches any run, `_` any one character. -/
def likeMatch : List Char → List Char → Bool
  | [], [] => true
  | [], _ :: _ => false
  | '%' :: ps, s =>
    likeMatch ps s ||
      (match s with
       | [] => false
       | _ :: s' => likeMatch ('%' :: ps) s')
  | '_' :: ps, _ :: s => likeMatch ps s
  | '_' :: _, [] => false
  | p :: ps, c :: s => p == c && likeMatch ps s
  | _ :: _, [] => false
termination_by p s => (p.length, s.length)

/-- Truth of a compiled clause at a row (comparisons involving `NULL` or a
missing column are not satisfied). -/
def evalClause (cl : Clause) (r : Row) : Bool :=
  match cl with
  | .eqC col v =>
    match r.get col, v with
    | some a, .scalar b => scalarCmp a b == some .eq
    | _, _ => false
  | .neC col v =>
    match r.get col, v with
    | some a, .scalar b => scalarCmp a b == some .lt || scalarCmp a b == some .gt
    | _, _ => false
  | .gtC col v =>
    match r.get col, v with
    | some a, .scalar b => scalarCmp a b == some .gt
    | _, _ => false
  | .ltC col v =>
    match r.get col, v with
    | some a, .scalar b => scalarCmp a b == some .lt
    | _, _ => false
  | .geC col v =>
    match r.get col, v with
    | some a, .scalar b => scalarCmp a b == some .gt || scalarCmp a b == some .eq
    | _, _ => false
  | .leC col v =>
    match r.get col, v with
    | some a, .scalar b => scalarCmp a b == some .lt || scalarCmp a b == some .eq
    | _, _ => false
  | .inC col vs =>
    match r.get col with
    | some a => vs.any (fun b => scalarCmp a b == some .eq)
    | none => false
  | .likeC col pat =>
    match r.get col with
    | some (.str s) => likeMatch pat.toList s.toList
    | _ => false

/-- An output cell value: a scalar or an exact rational (for `avg`). -/
inductive OutVal where
  | s (v : Scalar)
  | q (x : Rat)
deriving DecidableEq, Repr

/-- The non-`NULL` values of a column over a group of rows. -/
def colVals (c : String) (g : List Row) : List Scalar :=
  g.filterMap (fun r =>
    match Row.get r c with
    | some .null => none
    | some v => some v
    | none => none)

/-- The integer values of a column over a group of rows. -/
def colInts (c : String) (g : List Row) : List Int :=
  (colVals c g).filterMap (fun v => match v with | .int n => some n | _ => none)

/-- Value of an aggregate over a group.  `count(*)` counts rows;
`count(col)` counts non-`NULL` values; `count(NULL)` — the unvalidated-column
case — counts the non-`NULL` values of the constant `NULL`, i.e. `0`;
`sum/avg/max/min` aggregate the integer values, `NULL` on an empty input. -/
def evalAgg : AggExpr → List Row → OutVal
  | .countStar, g => .s (.int g.length)
  | .countCol none, _ => .s (.int 0)
  | .countCol (some c), g => .s (.int (colVals c g).length)
  | .sumC c, g =>
    match colInts c g with
    | [] => .s .null
    | l => .s (.int l.sum)
  | .avgC c, g =>
    match colInts c g with
    | [] => .s .null
    | l => .q ((l.sum : Rat) / (l.length : Rat))
  | .maxC c, g =>
    match (colInts c g).max? with
    | some m => .s (.int m)
    | none => .s .null
  | .minC c, g =>
    match (colInts c g).min? with
    | some m => .s (.int m)
    | none => .s .null

/-- Option-valued traversal: `some` of the list of results when every element
maps to `some`, else `none`. -/
def optMapM (f : α → Option β) : List α → Option (List β)
  | [] => some []
  | a :: l =>
    match f a with
    | none => none
    | some b =>
      match optMapM f l with
      | none => none
      | some bs => some (b :: bs)

/-- The grouping key of a row: the tuple of grouping-column values (a missing
column reads as `NULL`); undefined when any grouping expression is raw text. -/
def groupKey (gs : List GroupExpr) (r : Row) : Option (List Scalar) :=
  optMapM (fun g =>
    match g with
    | .col c => some ((Row.get r c).getD .null)
    | .raw _ => none) gs

/-- The select-list label of a grouping expression. -/
def groupLabel : GroupExpr → String
  | .col c => c
  | .raw t => t

/-- An output row: select-list labels paired with their values, in select-list
order. -/
def OutRow : Type := List (String × OutVal)

/-- Evaluate a statement before the limit is applied: filter, group (rows with
equal keys form one group; with no grouping the whole filtered set is the one
group), and compute the select list per group. -/
def evalStmtNoLimit (stmt : Stmt) (rows : List Row) : Option (List OutRow) :=
  let filtered := rows.filter (fun r => stmt.whereClauses.all (fun cl => evalClause cl r))
  match optMapM (fun r => (groupKey stmt.groupCols r).map (fun k => (k, r))) filtered with
  | none => none
  | some keyed =>
    let groups : List (List Scalar × List Row) :=
      if stmt.groupCols.isEmpty then [([], filtered)]
      else (keyed.map Prod.fst).dedup.map
        (fun k => (k, (keyed.filter (fun p => p.1 = k)).map Prod.snd))
    some (groups.map (fun p =>
      (stmt.groupCols.zip p.1).map (fun gc => (groupLabel gc.1, OutVal.s gc.2)) ++
        stmt.selCols.map (fun sc => (sc.2, evalAgg sc.1 p.2))))

/-- Apply the limit clause: `LIMIT n` returns at most `n` rows. -/
def applyLimit (lim : Option Int) (out : List OutRow) : List OutRow :=
  match lim with
  | none => out
  | some n => out.take n.toNat

/-- Full reference semantics of a compiled statement. -/
def evalStmt (stmt : Stmt) (rows : List Row) : Option (List OutRow) :=
  (evalStmtNoLimit stmt rows).map (applyLimit stmt.limitClause)

/-- Cache well-formedness: every cached entry is metadata that reflection of
that name would produce from the catalog (name matches the key, columns match
the catalog). -/
def cacheConsistent (db : DB) (st : SchemaState) : Prop :=
  ∀ n t, (n, t) ∈ st.cache → t.name = n ∧ db n = some t.cols

/-- Run a sequence of `get_table` resolutions, threading the cache state
(results are discarded; exceptions propagate to the caller in the source, so
each call simply leaves its state behind). -/
def runResolutions (db : DB) (st : SchemaState) : List String → SchemaState
  | [] => st
  | n :: ns => runResolutions db (get_table db st n).2 ns

/-- Concrete fixture: a reflected two-column table. -/
def wTable : Table := ⟨"t", ["a", "b"]⟩

/-- Concrete fixture: a catalog containing exactly the table `t(a, b)`. -/
def wDB : DB := fun n => if n = "t" then some ["a", "b"] else none

/-- Concrete fixture: the empty schema-cache state at process start. -/
def wState : SchemaState := ⟨[], 0⟩

/-- Concrete fixture: three one-column rows. -/
def wRows : List Row := [[("a", .int 10)], [("a", .int 3)], [("a", .int 7)]]

/-- Concrete fixture: the schema state after one reflection of `t`. -/
def wState1 : SchemaState := ⟨[("t", wTable)], 1⟩

/-- Concrete fixture: a request whose `in` filter carries a scalar value. -/
def wBadReq : QueryRequest :=
  { table := "t", filters := some [⟨"a", "in", .scalar (.int 1)⟩] }

/-- Concrete fixture: a metricless request with one ordering filter. -/
def wCountReq : QueryRequest :=
  { table := "t", filters := some [⟨"a", ">", .scalar (.int 5)⟩] }

/-- Concrete fixture: the statement `wCountReq` compiles to. -/
def wCountStmt : Stmt :=
  { fromTable := "t", groupCols := [], selCols := [(.countStar, "count")]
    whereClauses := [.gtC "a" (.scalar (.int 5))], limitClause := some 1000 }

/-- Concrete fixture: a metricless, filterless request with limit 2. -/
def wLimReq : QueryRequest := { table := "t", limit := some 2 }

/-- Concrete fixture: the statement `wLimReq` compiles to. -/
def wLimStmt : Stmt :=
  { fromTable := "t", groupCols := [], selCols := [(.countStar, "count")]
    whereClauses := [], limitClause := some 2 }

/-- Concrete fixture: a plain metricless request on table `t`. -/
def wReqPlain : QueryRequest := { table := "t" }

/-- Concrete fixture: an executor whose database session always fails. -/
def wFailExec : Stmt → Except String (List OutRow) := fun _ => .error "boom"

/-! ### Helper lemmas -/

/-- Every error raised by the predicate compiler carries status 400. -/
theorem afc_error_status (tbl : Table) (f : FilterItem) (e : HTTPException)
    (h : applyFilterClause tbl f = .error e) : e.status_code = 400 := by
  unfold applyFilterClause at h
  repeat' first
  | (split_ifs at h)
  | (split at h)
  all_goals (try cases h)
  all_goals rfl

/-- Every error raised by grouping resolution carries status 400. -/
theorem rgs_error_status (tbl : Table) (g : String) (e : HTTPException)
    (h : resolveGroupSpec tbl g = .error e) : e.status_code = 400 := by
  unfold resolveGroupSpec at h
  repeat' first
  | (split_ifs at h)
  | (split at h)
  all_goals (try cases h)
  all_goals rfl

/-- Every error raised by aggregate-expression dispatch carries status 400. -/
theorem me_error_status (tbl : Table) (m : Metric) (e : HTTPException)
    (h : metricExpr tbl m = .error e) : e.status_code = 400 := by
  unfold metricExpr at h
  repeat' first
  | (split_ifs at h)
  | (split at h)
  all_goals (try cases h)
  all_goals rfl

/-- Every error raised by the aggregate compiler carries status 400. -/
theorem cm_error_status (tbl : Table) (m : Metric) (e : HTTPException)
    (h : compileMetric tbl m = .error e) : e.status_code = 400 := by
  unfold compileMetric at h
  cases hme : metricExpr tbl m with
  | error e1 =>
    rw [hme] at h
    cases h
    exact me_error_status tbl m e hme
  | ok expr => rw [hme] at h; cases h

/-- The traversal `exMapM` only raises errors its body raises. -/
theorem exMapM_error_status {α β : Type} (f : α → Except HTTPException β)
    (hf : ∀ a e, f a = .error e → e.status_code = 400) :
    ∀ (l : List α) (e : HTTPException), exMapM f l = .error e → e.status_code = 400 := by
  intro l
  induction l with
  | nil => intro e h; simp [exMapM] at h
  | cons a l ih =>
    intro e h
    unfold exMapM at h
    cases hfa : f a with
    | error e1 =>
      rw [hfa] at h
      cases h
      exact hf a e hfa
    | ok b =>
      rw [hfa] at h
      cases hrest : exMapM f l with
      | error e2 =>
        rw [hrest] at h
        cases h
        exact ih e hrest
      | ok bs => rw [hrest] at h; cases h

/-- If `exMapM` succeeds, the body succeeded on every element. -/
theorem exMapM_ok_mem {α β : Type} (f : α → Except HTTPException β) :
    ∀ (l : List α) (bs : List β), exMapM f l = .ok bs →
      ∀ a ∈ l, ∃ b, f a = .ok b := by
  intro l
  induction l with
  | nil => intro bs _ a ha; cases ha
  | cons x l ih =>
    intro bs h a ha
    unfold exMapM at h
    cases hfx : f x with
    | error e1 => rw [hfx] at h; cases h
    | ok b =>
      rw [hfx] at h
      cases hrest : exMapM f l with
      | error e2 => rw [hrest] at h; cases h
      | ok bs' =>
        rw [hrest] at h
        rcases List.mem_cons.mp ha with rfl | ha'
        · exact ⟨b, hfx⟩
        · exact ih bs' hrest a ha'

/-- Every compilation-phase failure of `/query` carries status 400. -/
theorem compileQuery_error_status (db : DB) (st : SchemaState) (req : QueryRequest)
    (e : HTTPException) (h : (compileQuery db st req).1 = .error e) :
    e.status_code = 400 := by
  unfold compileQuery at h
  cases hg : get_table db st req.table with
  | mk r st' =>
    rw [hg] at h
    cases r with
    | error msg => cases h; rfl
    | ok tbl =>
      simp only at h
      cases h1 : exMapM (resolveGroupSpec tbl) (req.group_by.getD []) with
      | error e1 =>
        rw [h1] at h; cases h
        exact exMapM_error_status _ (rgs_error_status tbl) _ e h1
      | ok gcols =>
        rw [h1] at h
        cases h2 : exMapM (compileMetric tbl) (req.metrics.getD []) with
        | error e2 =>
          rw [h2] at h; cases h
          exact exMapM_error_status _ (cm_error_status tbl) _ e h2
        | ok scols =>
          rw [h2] at h
          cases h3 : exMapM (applyFilterClause tbl) (req.filters.getD []) with
          | error e3 =>
            rw [h3] at h; cases h
            exact exMapM_error_status _ (afc_error_status tbl) _ e h3
          | ok clauses => rw [h3] at h; cases h

/-- Inversion of a successful `/query` compilation: each stage succeeded and
the statement is assembled exactly from their outputs. -/
theorem compileQuery_ok_shape (db : DB) (st : SchemaState) (req : QueryRequest)
    (stmt : Stmt) (st' : SchemaState)
    (h : compileQuery db st req = (.ok stmt, st')) :
    ∃ tbl, (get_table db st req.table).1 = .ok tbl ∧
      ∃ gcols, exMapM (resolveGroupSpec tbl) (req.group_by.getD []) = .ok gcols ∧
      ∃ scols, exMapM (compileMetric tbl) (req.metrics.getD []) = .ok scols ∧
      ∃ clauses, exMapM (applyFilterClause tbl) (req.filters.getD []) = .ok clauses ∧
      stmt = { fromTable := req.table
               groupCols := gcols
               selCols := if scols.isEmpty then [(.countStar, "count")] else scols
               whereClauses := clauses
               limitClause := if intTruthy req.limit then req.limit else none } := by
  unfold compileQuery at h
  cases hg : get_table db st req.table with
  | mk r st2 =>
    rw [hg] at h
    cases r with
    | error msg => cases h
    | ok tbl =>
      refine ⟨tbl, rfl, ?_⟩
      simp only at h
      cases h1 : exMapM (resolveGroupSpec tbl) (req.group_by.getD []) with
      | error e1 => rw [h1] at h; cases h
      | ok gcols =>
        rw [h1] at h
        refine ⟨gcols, rfl, ?_⟩
        cases h2 : exMapM (compileMetric tbl) (req.metrics.getD []) with
        | error e2 => rw [h2] at h; cases h
        | ok scols =>
          rw [h2] at h
          refine ⟨scols, rfl, ?_⟩
          cases h3 : exMapM (applyFilterClause tbl) (req.filters.getD []) with
          | error e3 => rw [h3] at h; cases h
          | ok clauses =>
            rw [h3] at h
            refine ⟨clauses, rfl, ?_⟩
            cases h
            rfl

/-- A successful cache lookup is a cache entry. -/
theorem cacheLookup_mem : ∀ (l : List (String × Table)) (n : String) (t : Table),
    cacheLookup l n = some t → (n, t) ∈ l := by
  intro l
  induction l with
  | nil => intro n t h; cases h
  | cons p l ih =>
    intro n t h
    obtain ⟨k, t'⟩ := p
    unfold cacheLookup at h
    by_cases hk : k = n
    · rw [if_pos hk] at h
      cases h
      rw [← hk]
      exact List.mem_cons_self _ _
    · rw [if_neg hk] at h
      exact List.mem_cons_of_mem _ (ih n t h)

/-- A cache hit returns the stored metadata and leaves the state untouched. -/
theorem get_table_hit (db : DB) (st : SchemaState) (name : String) (t : Table)
    (h : cacheLookup st.cache name = some t) :
    get_table db st name = (.ok t, st) := by
  unfold get_table
  rw [h]

/-- Reflection of an absent table fails and leaves the state untouched. -/
theorem get_table_miss_absent (db : DB) (st : SchemaState) (name : String)
    (hmiss : cacheLookup st.cache name = none) (habs : db name = none) :
    get_table db st name = (.error ("NoSuchTableError: " ++ name), st) := by
  unfold get_table
  rw [hmiss, habs]

/-- Under a consistent cache, a table absent from the catalog is never cached. -/
theorem consistent_lookup_none (db : DB) (st : SchemaState)
    (h : cacheConsistent db st) (name : String) (habs : db name = none) :
    cacheLookup st.cache name = none := by
  cases hl : cacheLookup st.cache name with
  | none => rfl
  | some t =>
    obtain ⟨-, h2⟩ := h name t (cacheLookup_mem _ _ _ hl)
    rw [habs] at h2
    cases h2

/-- Under a consistent cache, resolving a present table returns exactly the
catalog's metadata, whether served from the cache or freshly reflected. -/
theorem get_table_some (db : DB) (st : SchemaState) (h : cacheConsistent db st)
    (name : String) (cols : List String) (hdb : db name = some cols) :
    (get_table db st name).1 = .ok ⟨name, cols⟩ := by
  cases hl : cacheLookup st.cache name with
  | some t =>
    obtain ⟨h1, h2⟩ := h name t (cacheLookup_mem _ _ _ hl)
    rw [hdb] at h2
    injection h2 with h3
    rw [get_table_hit db st name t hl]
    obtain ⟨tn, tc⟩ := t
    simp only at h1 h3
    rw [h1, ← h3]
  | none =>
    unfold get_table
    rw [hl, hdb]

/-- Resolution via `get_table` preserves cache consistency. -/
theorem get_table_preserves (db : DB) (st : SchemaState)
    (h : cacheConsistent db st) (name : String) :
    cacheConsistent db (get_table db st name).2 := by
  cases hl : cacheLookup st.cache name with
  | some t =>
    rw [get_table_hit db st name t hl]
    exact h
  | none =>
    cases hdb : db name with
    | none =>
      rw [get_table_miss_absent db st name hl hdb]
      exact h
    | some cols =>
      unfold get_table
      rw [hl, hdb]
      intro n t hmem
      rcases List.mem_cons.mp hmem with heq | hmem'
      · cases heq
        exact ⟨rfl, hdb⟩
      · exact h n t hmem'

/-- Any sequence of resolutions preserves cache consistency. -/
theorem runResolutions_preserves (db : DB) :
    ∀ (names : List String) (st : SchemaState), cacheConsistent db st →
      cacheConsistent db (runResolutions db st names) := by
  intro names
  induction names with
  | nil => intro st h; exact h
  | cons n ns ih =>
    intro st h
    exact ih _ (get_table_preserves db st h n)

/-! ### Claim theorems -/

/-- C1 (counterexample): the word-form ordering operator `gt` — which the
claim places in the supported set — is rejected by the predicate compiler as
an unsupported operator, on a table where the filter column exists; so is
`gte`. -/
theorem C1_counterexample :
    applyFilterClause wTable ⟨"a", "gt", .scalar (.int 1)⟩ =
      .error ⟨400, "Unsupported filter op: gt"⟩ ∧
    applyFilterClause wTable ⟨"a", "gte", .scalar (.int 1)⟩ =
      .error ⟨400, "Unsupported filter op: gte"⟩ := by
  constructor <;> rfl

/-- C1 (amended): for a filter term whose column exists on the resolved table,
the supported operators are exactly `eq`, `=`, `ne`, `!=`, the symbolic
ordering forms `>`, `<`, `>=`, `<=`, `in`, and `like`, each compiling to the
corresponding comparison clause; every operator outside this set — including
the word forms `gt`, `lt`, `gte`, `lte` — fails with the unsupported-operator
error. -/
theorem C1_operator_dispatch (tbl : Table) (f : FilterItem) (col : String)
    (hcol : tbl.getCol f.column = some col) :
    ((pyLower f.op = "eq" ∨ pyLower f.op = "=") →
      applyFilterClause tbl f = .ok (.eqC col f.value)) ∧
    ((pyLower f.op = "ne" ∨ pyLower f.op = "!=") →
      applyFilterClause tbl f = .ok (.neC col f.value)) ∧
    (pyLower f.op = ">" → applyFilterClause tbl f = .ok (.gtC col f.value)) ∧
    (pyLower f.op = "<" → applyFilterClause tbl f = .ok (.ltC col f.value)) ∧
    (pyLower f.op = ">=" → applyFilterClause tbl f = .ok (.geC col f.value)) ∧
    (pyLower f.op = "<=" → applyFilterClause tbl f = .ok (.leC col f.value)) ∧
    (pyLower f.op = "in" → ∀ vs, f.value = .list vs →
      applyFilterClause tbl f = .ok (.inC col vs)) ∧
    (pyLower f.op = "like" →
      applyFilterClause tbl f = .ok (.likeC col f.value.pyStr)) ∧
    (pyLower f.op ∉
        (["eq", "=", "ne", "!=", ">", "<", ">=", "<=", "in", "like"] : List String) →
      applyFilterClause tbl f = .error ⟨400, "Unsupported filter op: " ++ f.op⟩) := by
  refine ⟨?_, ?_, ?_, ?_, ?_, ?_, ?_, ?_, ?_⟩
  · rintro (hop | hop) <;> simp [applyFilterClause, hcol, hop]
  · rintro (hop | hop) <;> simp [applyFilterClause, hcol, hop]
  · intro hop; simp [applyFilterClause, hcol, hop]
  · intro hop; simp [applyFilterClause, hcol, hop]
  · intro hop; simp [applyFilterClause, hcol, hop]
  · intro hop; simp [applyFilterClause, hcol, hop]
  · intro hop vs hv; simp [applyFilterClause, hcol, hop, hv]
  · intro hop; simp [applyFilterClause, hcol, hop]
  · intro hop
    simp only [List.mem_cons, List.not_mem_nil, or_false, not_or] at hop
    obtain ⟨h1, h2, h3, h4, h5, h6, h7, h8, h9, h10⟩ := hop
    simp [applyFilterClause, hcol, h1, h2, h3, h4, h5, h6, h7, h8, h9, h10]

/-- C1 (witness): the symbolic operator `>=` on an existing column compiles to
the ordering clause. -/
theorem C1_operator_dispatch_witness :
    applyFilterClause wTable ⟨"a", ">=", .scalar (.int 3)⟩ =
      .ok (.geC "a" (.scalar (.int 3))) :=
  (C1_operator_dispatch wTable ⟨"a", ">=", .scalar (.int 3)⟩ "a"
    (by decide)).2.2.2.2.1 (by decide)

/-- Inversion of a successful predicate compilation: the column exists and the
clause is the operator's constructor applied to that column and the value. -/
theorem afc_ok_cases (tbl : Table) (f : FilterItem) (c : Clause)
    (h : applyFilterClause tbl f = .ok c) :
    ∃ col, tbl.getCol f.column = some col ∧
      (((pyLower f.op = "=" ∨ pyLower f.op = "eq") ∧ c = .eqC col f.value) ∨
       ((pyLower f.op = "!=" ∨ pyLower f.op = "ne") ∧ c = .neC col f.value) ∨
       (pyLower f.op = ">" ∧ c = .gtC col f.value) ∨
       (pyLower f.op = "<" ∧ c = .ltC col f.value) ∨
       (pyLower f.op = ">=" ∧ c = .geC col f.value) ∨
       (pyLower f.op = "<=" ∧ c = .leC col f.value) ∨
       (pyLower f.op = "in" ∧ ∃ vs, f.value = .list vs ∧ c = .inC col vs) ∨
       (pyLower f.op = "like" ∧ c = .likeC col f.value.pyStr)) := by
  unfold applyFilterClause at h
  split at h
  · cases h
  · rename_i col hcol
    refine ⟨col, hcol, ?_⟩
    split_ifs at h with h1 h2 h3 h4 h5 h6 h7 h8
    · cases h; exact Or.inl ⟨h1, rfl⟩
    · cases h; exact Or.inr (Or.inl ⟨h2, rfl⟩)
    · cases h; exact Or.inr (Or.inr (Or.inl ⟨h3, rfl⟩))
    · cases h; exact Or.inr (Or.inr (Or.inr (Or.inl ⟨h4, rfl⟩)))
    · cases h; exact Or.inr (Or.inr (Or.inr (Or.inr (Or.inl ⟨h5, rfl⟩))))
    · cases h; exact Or.inr (Or.inr (Or.inr (Or.inr (Or.inr (Or.inl ⟨h6, rfl⟩)))))
    · cases hv : f.value with
      | list vs =>
        rw [hv] at h
        cases h
        exact Or.inr (Or.inr (Or.inr (Or.inr (Or.inr (Or.inr (Or.inl
          ⟨h7, vs, rfl, rfl⟩))))))
      | scalar s => rw [hv] at h; cases h
    · cases h
      exact Or.inr (Or.inr (Or.inr (Or.inr (Or.inr (Or.inr (Or.inr ⟨h8, rfl⟩))))))

/-- C2: a successfully compiled filter clause carries the filter value only in
its bound-parameter list — unchanged for the comparison operators, element-wise
for `in`, string-coerced for `like` — and the literal SQL text of the clause is
independent of the value (two filters differing only in their value compile to
clauses with identical SQL text). -/
theorem C2_parameter_binding (tbl : Table) (f : FilterItem) (c : Clause)
    (h : applyFilterClause tbl f = .ok c) :
    ((pyLower f.op ≠ "in" ∧ pyLower f.op ≠ "like") → c.params = [f.value]) ∧
    (pyLower f.op = "like" → c.params = [.scalar (.str f.value.pyStr)]) ∧
    (pyLower f.op = "in" →
      ∃ vs, f.value = .list vs ∧ c.params = vs.map Value.scalar) ∧
    (∀ (f' : FilterItem) (c' : Clause), f'.column = f.column → f'.op = f.op →
      applyFilterClause tbl f' = .ok c' → c'.sqlText = c.sqlText) := by
  obtain ⟨col, hcol, hcases⟩ := afc_ok_cases tbl f c h
  refine ⟨?_, ?_, ?_, ?_⟩
  · rintro ⟨hni, hnl⟩
    rcases hcases with ⟨hop | hop, rfl⟩ | ⟨hop | hop, rfl⟩ | ⟨hop, rfl⟩ | ⟨hop, rfl⟩ |
      ⟨hop, rfl⟩ | ⟨hop, rfl⟩ | ⟨hop, vs, hv, rfl⟩ | ⟨hop, rfl⟩ <;>
      simp_all [Clause.params]
  · intro hop
    rcases hcases with ⟨hop2 | hop2, rfl⟩ | ⟨hop2 | hop2, rfl⟩ | ⟨hop2, rfl⟩ | ⟨hop2, rfl⟩ |
      ⟨hop2, rfl⟩ | ⟨hop2, rfl⟩ | ⟨hop2, vs, hv, rfl⟩ | ⟨hop2, rfl⟩ <;>
      simp_all [Clause.params]
  · intro hop
    rcases hcases with ⟨hop2 | hop2, rfl⟩ | ⟨hop2 | hop2, rfl⟩ | ⟨hop2, rfl⟩ | ⟨hop2, rfl⟩ |
      ⟨hop2, rfl⟩ | ⟨hop2, rfl⟩ | ⟨hop2, vs, hv, rfl⟩ | ⟨hop2, rfl⟩ <;>
      simp_all [Clause.params]
  · intro f' c' hcol' hop' h'
    obtain ⟨col2, hcol2, hcases'⟩ := afc_ok_cases tbl f' c' h'
    rw [hcol', hcol] at hcol2
    injection hcol2 with hceq
    have hopEq : pyLower f'.op = pyLower f.op := by rw [hop']
    rcases hcases with ⟨hop | hop, rfl⟩ | ⟨hop | hop, rfl⟩ | ⟨hop, rfl⟩ | ⟨hop, rfl⟩ |
      ⟨hop, rfl⟩ | ⟨hop, rfl⟩ | ⟨hop, vs, hv, rfl⟩ | ⟨hop, rfl⟩ <;>
      rcases hcases' with ⟨hop2 | hop2, rfl⟩ | ⟨hop2 | hop2, rfl⟩ | ⟨hop2, rfl⟩ | ⟨hop2, rfl⟩ |
        ⟨hop2, rfl⟩ | ⟨hop2, rfl⟩ | ⟨hop2, vs2, hv2, rfl⟩ | ⟨hop2, rfl⟩ <;>
      simp_all [Clause.sqlText]

/-- C2 (witness): a `like` filter with an integer value compiles to a clause
whose single bound parameter is the string coercion of that value. -/
theorem C2_parameter_binding_witness :
    (Clause.likeC "a" "5").params = [.scalar (.str "5")] :=
  (C2_parameter_binding wTable ⟨"a", "like", .scalar (.int 5)⟩ (.likeC "a" "5")
    (by rfl)).2.1 (by decide)

/-- C3 (counterexample): a grouping specifier containing an internal tab —
internal whitespace, which the claim classifies as raw and passes through
verbatim — is instead treated as a column reference and rejected; and a
specifier with a leading space — not internal whitespace, which the claim
classifies as a column reference that must exist — is instead passed through
as a raw fragment. -/
theorem C3_counterexample :
    resolveGroupSpec wTable "a\tb" =
      .error ⟨400, "Unknown group_by column: a\tb"⟩ ∧
    resolveGroupSpec wTable " a" = .ok (.raw " a") := by
  constructor <;> rfl

/-- C3 (amended): a grouping specifier is classified as raw exactly when it
contains an opening parenthesis, the `::` cast marker, or a space character
anywhere (including leading/trailing); raw specifiers pass through verbatim as
unparameterized SQL text, and the rest are column references that must exist
on the resolved table, failing with the unknown-column error otherwise. -/
theorem C3_grouping_classification (tbl : Table) (g : String) :
    (isRawGroup g = (strContains g "(" || strContains g "::" || strContains g " ")) ∧
    (isRawGroup g = true → resolveGroupSpec tbl g = .ok (.raw g)) ∧
    (isRawGroup g = false → tbl.getCol g = none →
      resolveGroupSpec tbl g = .error ⟨400, "Unknown group_by column: " ++ g⟩) ∧
    (isRawGroup g = false → ∀ c, tbl.getCol g = some c →
      resolveGroupSpec tbl g = .ok (.col c)) := by
  refine ⟨rfl, ?_, ?_, ?_⟩
  · intro h; simp [resolveGroupSpec, h]
  · intro h hc; simp [resolveGroupSpec, h, hc]
  · intro h c hc; simp [resolveGroupSpec, h, hc]

/-- C3 (witness): a date-truncation expression is raw and passes through; a
plain existing column name resolves as a column reference. -/
theorem C3_grouping_classification_witness :
    resolveGroupSpec wTable "date_trunc(day)" = .ok (.raw "date_trunc(day)") ∧
    resolveGroupSpec wTable "a" = .ok (.col "a") :=
  ⟨(C3_grouping_classification wTable "date_trunc(day)").2.1 (by decide),
   (C3_grouping_classification wTable "a").2.2.2 (by decide) "a" (by decide)⟩

/-- The empty startup cache is consistent with any catalog. -/
theorem wState_consistent (db : DB) : cacheConsistent db wState := by
  intro n t hmem
  simp [wState] at hmem

/-- C4: starting from any consistent cache state, resolving a table name
absent from the database fails (and the `/query` endpoint surfaces it as a
400 caller-facing error); resolving a present table returns metadata with the
catalog's column set on the first and on every subsequent resolution (after
any interleaved sequence of other resolutions); and a resolution served from
the cache returns the stored metadata with the state — including the
reflection I/O counter — untouched. -/
theorem C4_table_resolution (db : DB) (st : SchemaState)
    (h : cacheConsistent db st) (name : String) :
    (db name = none →
      get_table db st name = (.error ("NoSuchTableError: " ++ name), st) ∧
      ∀ (α : Type) (ex : Stmt → Except String α) (req : QueryRequest),
        req.table = name →
        (queryEndpoint db st ex req).1 =
          .error ⟨400, "Table not found or reflection error: " ++
            ("NoSuchTableError: " ++ name)⟩) ∧
    (∀ cols, db name = some cols → ∀ names : List String,
      (get_table db (runResolutions db st names) name).1 = .ok ⟨name, cols⟩) ∧
    (∀ t, cacheLookup st.cache name = some t →
      get_table db st name = (.ok t, st)) := by
  refine ⟨?_, ?_, ?_⟩
  · intro habs
    have hmiss := consistent_lookup_none db st h name habs
    refine ⟨get_table_miss_absent db st name hmiss habs, ?_⟩
    intro α ex req hreq
    have hcq : compileQuery db st req =
        (.error ⟨400, "Table not found or reflection error: " ++
          ("NoSuchTableError: " ++ name)⟩, st) := by
      unfold compileQuery
      rw [hreq, get_table_miss_absent db st name hmiss habs]
    unfold queryEndpoint
    rw [hcq]
  · intro cols hdb names
    exact get_table_some db _ (runResolutions_preserves db names st h) name cols hdb
  · intro t ht
    exact get_table_hit db st name t ht

/-- C4 (witness): against the fixture catalog, resolving an absent name fails
leaving the state unchanged, and resolving the present table returns its
column set. -/
theorem C4_table_resolution_witness :
    get_table wDB wState "nope" = (.error ("NoSuchTableError: " ++ "nope"), wState) ∧
    (get_table wDB wState "t").1 = .ok ⟨"t", ["a", "b"]⟩ :=
  ⟨((C4_table_resolution wDB wState (wState_consistent wDB) "nope").1 (by rfl)).1,
   (C4_table_resolution wDB wState (wState_consistent wDB) "t").2.1
     ["a", "b"] (by rfl) []⟩

/-- C10: the table cache only ever holds successfully reflected metadata — a
failed resolution leaves the state (hence the cache) unchanged, consistency is
preserved by every sequence of resolutions, and after any such sequence every
cache entry's column set is exactly what the catalog reports for its key. -/
theorem C10_cache_invariant (db : DB) (st : SchemaState)
    (h : cacheConsistent db st) :
    (∀ name e, (get_table db st name).1 = .error e →
      (get_table db st name).2 = st) ∧
    (∀ names, cacheConsistent db (runResolutions db st names)) ∧
    (∀ names n t, (n, t) ∈ (runResolutions db st names).cache →
      t.name = n ∧ db n = some t.cols) := by
  refine ⟨?_, ?_, ?_⟩
  · intro name e herr
    cases hl : cacheLookup st.cache name with
    | some t =>
      rw [get_table_hit db st name t hl] at herr
      simp at herr
    | none =>
      cases hdb : db name with
      | none => rw [get_table_miss_absent db st name hl hdb]
      | some cols =>
        have hok : (get_table db st name).1 = .ok ⟨name, cols⟩ := by
          unfold get_table
          rw [hl, hdb]
        rw [hok] at herr
        simp at herr
  · intro names
    exact runResolutions_preserves db names st h
  · intro names n t hmem
    exact runResolutions_preserves db names st h n t hmem

/-- C10 (witness): a failed resolution of an absent table leaves the startup
state unchanged, and a hit–miss–hit sequence keeps the cache consistent. -/
theorem C10_cache_invariant_witness :
    (get_table wDB wState "nope").2 = wState ∧
    cacheConsistent wDB (runResolutions wDB wState ["t", "nope", "t"]) :=
  ⟨(C10_cache_invariant wDB wState (wState_consistent wDB)).1 "nope"
     ("NoSuchTableError: " ++ "nope") (by rfl),
   (C10_cache_invariant wDB wState (wState_consistent wDB)).2.1 ["t", "nope", "t"]⟩

/-- An `in` filter whose value is not a list never compiles successfully. -/
theorem in_nonlist_never_ok (tbl : Table) (f : FilterItem)
    (hop : pyLower f.op = "in") (hval : f.value.isList = false) :
    ∀ c, applyFilterClause tbl f ≠ .ok c := by
  intro c hc
  obtain ⟨col, hcol, hcases⟩ := afc_ok_cases tbl f c hc
  rcases hcases with ⟨hop2 | hop2, -⟩ | ⟨hop2 | hop2, -⟩ | ⟨hop2, -⟩ | ⟨hop2, -⟩ |
    ⟨hop2, -⟩ | ⟨hop2, -⟩ | ⟨-, vs, hv, -⟩ | ⟨hop2, -⟩ <;>
    simp_all [Value.isList]

/-- An `in` filter with a non-list value on an existing column fails with
exactly the list-validation error. -/
theorem in_nonlist_validation (tbl : Table) (f : FilterItem) (col : String)
    (hcol : tbl.getCol f.column = some col)
    (hop : pyLower f.op = "in") (hval : f.value.isList = false) :
    applyFilterClause tbl f = .error ⟨400, "Value for 'in' must be a list"⟩ := by
  cases hv : f.value with
  | scalar s => simp [applyFilterClause, hcol, hop, hv]
  | list vs => rw [hv] at hval; simp [Value.isList] at hval

/-- When the body rejects some member outright, `exMapM` fails with a 400. -/
theorem exMapM_fail_of_mem {α β : Type} (f : α → Except HTTPException β)
    (hall : ∀ x e, f x = .error e → e.status_code = 400) :
    ∀ (l : List α) (a : α), a ∈ l → (∀ b, f a ≠ .ok b) →
      ∃ e, exMapM f l = .error e ∧ e.status_code = 400 := by
  intro l
  induction l with
  | nil => intro a ha; cases ha
  | cons x l ih =>
    intro a ha hbad
    cases hfx : f x with
    | error e1 =>
      refine ⟨e1, ?_, hall x e1 hfx⟩
      unfold exMapM
      rw [hfx]
    | ok b =>
      rcases List.mem_cons.mp ha with rfl | ha'
      · exact absurd hfx (hbad b)
      · obtain ⟨e, he, hs⟩ := ih a ha' hbad
        refine ⟨e, ?_, hs⟩
        unfold exMapM
        rw [hfx, he]

/-- C5: a request containing an `in` filter whose value is not a sequence is
rejected by the predicate compiler with the list-validation error whenever its
column resolves, and the request as a whole always fails with a 400 whose
value is independent of the executor — no statement is ever run against the
database. -/
theorem C5_in_requires_list (db : DB) (st : SchemaState) (req : QueryRequest)
    (fs : List FilterItem) (f : FilterItem)
    (hf : req.filters = some fs) (hmem : f ∈ fs)
    (hop : pyLower f.op = "in") (hval : f.value.isList = false) :
    (∀ (tbl : Table) (col : String), tbl.getCol f.column = some col →
      applyFilterClause tbl f = .error ⟨400, "Value for 'in' must be a list"⟩) ∧
    (∃ e, e.status_code = 400 ∧ ∀ (α : Type) (ex : Stmt → Except String α),
      (queryEndpoint db st ex req).1 = .error e) := by
  constructor
  · intro tbl col hcol
    exact in_nonlist_validation tbl f col hcol hop hval
  · cases hcq : compileQuery db st req with
    | mk r st2 =>
      cases r with
      | error e =>
        refine ⟨e, compileQuery_error_status db st req e (by rw [hcq]), ?_⟩
        intro α ex
        unfold queryEndpoint
        rw [hcq]
      | ok stmt =>
        exfalso
        obtain ⟨tbl, -, gcols, -, scols, -, clauses, hcl, -⟩ :=
          compileQuery_ok_shape db st req stmt st2 hcq
        obtain ⟨b, hb⟩ := exMapM_ok_mem _ _ _ hcl f (by rw [hf]; exact hmem)
        exact in_nonlist_never_ok tbl f hop hval b hb

/-- C5 (witness): the fixture request carrying `{"column": "a", "op": "in",
"value": 1}` fails with the validation error and never reaches any executor. -/
theorem C5_in_requires_list_witness :
    applyFilterClause wTable ⟨"a", "in", .scalar (.int 1)⟩ =
      .error ⟨400, "Value for 'in' must be a list"⟩ ∧
    (∃ e, e.status_code = 400 ∧ ∀ (α : Type) (ex : Stmt → Except String α),
      (queryEndpoint wDB wState ex wBadReq).1 = .error e) :=
  ⟨(C5_in_requires_list wDB wState wBadReq [⟨"a", "in", .scalar (.int 1)⟩]
      ⟨"a", "in", .scalar (.int 1)⟩ rfl (List.mem_singleton.mpr rfl)
      (by decide) (by decide)).1 wTable "a" (by decide),
   (C5_in_requires_list wDB wState wBadReq [⟨"a", "in", .scalar (.int 1)⟩]
      ⟨"a", "in", .scalar (.int 1)⟩ rfl (List.mem_singleton.mpr rfl)
      (by decide) (by decide)).2⟩

/-- C6: every error surfaced by the `/query` endpoint is either a 400 produced
by the compilation phase, or a 500 wrapping the executor's failure message on
a successfully compiled statement — and nothing else. -/
theorem C6_error_partition {α : Type} (db : DB) (st : SchemaState)
    (ex : Stmt → Except String α) (req : QueryRequest) (e : HTTPException)
    (h : (queryEndpoint db st ex req).1 = .error e) :
    (e.status_code = 400 ∧ (compileQuery db st req).1 = .error e) ∨
    (e.status_code = 500 ∧ ∃ stmt st' msg,
      compileQuery db st req = (.ok stmt, st') ∧ ex stmt = .error msg ∧
      e = ⟨500, msg⟩) := by
  unfold queryEndpoint at h
  split at h
  · rename_i e1 st2 heq
    replace h : (Except.error e1 : Except HTTPException α) = .error e := h
    injection h with h2
    subst h2
    left
    exact ⟨compileQuery_error_status db st req e1 (by rw [heq]), by rw [heq]⟩
  · rename_i stmt st2 heq
    split at h
    · rename_i msg heq2
      replace h : (Except.error ⟨500, msg⟩ : Except HTTPException α) = .error e := h
      injection h with h2
      subst h2
      right
      exact ⟨rfl, stmt, st2, msg, heq, heq2, rfl⟩
    · rename_i rows heq2
      replace h : (Except.ok rows : Except HTTPException α) = .error e := h
      cases h

/-- C6 (witness): with an always-failing executor, a compilable request
surfaces the executor failure as a 500 wrapping its message. -/
theorem C6_error_partition_witness :
    ((⟨500, "boom"⟩ : HTTPException).status_code = 400 ∧
      (compileQuery wDB wState wReqPlain).1 = .error ⟨500, "boom"⟩) ∨
    ((⟨500, "boom"⟩ : HTTPException).status_code = 500 ∧
      ∃ stmt st' msg, compileQuery wDB wState wReqPlain = (.ok stmt, st') ∧
        wFailExec stmt = .error msg ∧ (⟨500, "boom"⟩ : HTTPException) = ⟨500, msg⟩) :=
  C6_error_partition wDB wState wFailExec wReqPlain ⟨500, "boom"⟩ (by rfl)

/-- C9: a `count` metric over a column that does not exist on the table still
compiles — the unvalidated lookup yields a `None` target inside the aggregate
(`count(NULL)`) and the default alias still names the unknown column — while
`sum` over the same unknown column fails with the unknown-column error. -/
theorem C9_count_unknown_column (tbl : Table) (c : String)
    (hne : c ≠ "") (hcol : tbl.getCol c = none) :
    compileMetric tbl { op := "count", column := some c } =
      .ok (.countCol none, "count_" ++ c) ∧
    compileMetric tbl { op := "sum", column := some c } =
      .error ⟨400, "Unknown metric column: " ++ c⟩ := by
  have hc : pyLower "count" = "count" := by decide
  have hs : pyLower "sum" = "sum" := by decide
  have happ : ("count" ++ "_" : String) = "count_" := by decide
  constructor
  · simp [compileMetric, metricExpr, metricLabel, strTruthy, hc, hcol, hne, happ,
      String.append_assoc]
  · simp [compileMetric, metricExpr, metricLabel, strTruthy, hs, hcol, hne]

/-- C9 (witness): `count` over the unknown column `zz` compiles to
`count(NULL)` aliased `count_zz`; `sum` over it is rejected. -/
theorem C9_count_unknown_column_witness :
    compileMetric wTable { op := "count", column := some "zz" } =
      .ok (.countCol none, "count_" ++ "zz") ∧
    compileMetric wTable { op := "sum", column := some "zz" } =
      .error ⟨400, "Unknown metric column: " ++ "zz"⟩ :=
  C9_count_unknown_column wTable "zz" (by decide) (by decide)

/-- A pointwise-total traversal succeeds with the mapped list. -/
theorem optMapM_total {α β : Type} (f : α → Option β) (g : α → β)
    (hf : ∀ a, f a = some (g a)) : ∀ l : List α, optMapM f l = some (l.map g) := by
  intro l
  induction l with
  | nil => rfl
  | cons a l ih => simp [optMapM, hf, ih]

/-- With no grouping expressions, evaluation yields a single output row: the
select-list aggregates over the filtered row set. -/
theorem evalStmtNoLimit_no_grouping (stmt : Stmt) (hg : stmt.groupCols = [])
    (rows : List Row) :
    evalStmtNoLimit stmt rows = some [stmt.selCols.map (fun sc =>
      (sc.2, evalAgg sc.1 (rows.filter (fun r =>
        stmt.whereClauses.all (fun cl => evalClause cl r)))))] := by
  simp only [evalStmtNoLimit, hg]
  rw [optMapM_total (fun r => (groupKey [] r).map (fun k => (k, r)))
    (fun r => (([] : List Scalar), r)) (fun r => rfl)]
  simp

/-- C7: when the request has no metric descriptors (absent or empty), the
compiled statement's aggregate select list is exactly the synthesized implicit
count aliased `"count"`; semantically (no grouping), executing the statement
yields one row whose `"count"` cell is the number of rows satisfying the
attached filters. -/
theorem C7_implicit_count (db : DB) (st : SchemaState) (req : QueryRequest)
    (stmt : Stmt) (st' : SchemaState)
    (hm : req.metrics = none ∨ req.metrics = some [])
    (hc : compileQuery db st req = (.ok stmt, st')) :
    stmt.selCols = [(.countStar, "count")] ∧
    (stmt.groupCols = [] → ∀ rows : List Row,
      evalStmtNoLimit stmt rows = some [[("count", OutVal.s (.int
        ((rows.filter (fun r =>
          stmt.whereClauses.all (fun cl => evalClause cl r))).length : Int)))]]) := by
  obtain ⟨tbl, htbl, gcols, hg, scols, hs, clauses, hcl, hstmt⟩ :=
    compileQuery_ok_shape db st req stmt st' hc
  have hscols : scols = [] := by
    rcases hm with hm | hm <;> rw [hm] at hs <;> exact (Except.ok.inj hs).symm
  subst hstmt
  rw [hscols]
  refine ⟨rfl, ?_⟩
  intro hgroup rows
  have hg0 : gcols = [] := hgroup
  subst hg0
  rw [evalStmtNoLimit_no_grouping _ rfl rows]
  simp [evalAgg]

/-- C7 (witness): the metricless fixture request compiles to a bare-count
statement, and over the three fixture rows with filter `a > 5` the count cell
is 2. -/
theorem C7_implicit_count_witness :
    wCountStmt.selCols = [(.countStar, "count")] ∧
    evalStmtNoLimit wCountStmt wRows = some [[("count", OutVal.s (.int 2))]] := by
  have h := C7_implicit_count wDB wState wCountReq wCountStmt wState1
    (Or.inl rfl) (by rfl)
  exact ⟨h.1, h.2 rfl wRows⟩

/-- The limit clause bounds the cardinality of any evaluation result. -/
theorem evalStmt_limit_bound (stmt : Stmt) (v : Int) (rows : List Row)
    (out : List OutRow) (hlim : stmt.limitClause = some v)
    (hev : evalStmt stmt rows = some out) : out.length ≤ v.toNat := by
  unfold evalStmt at hev
  cases he : evalStmtNoLimit stmt rows with
  | none => rw [he] at hev; cases hev
  | some base =>
    rw [he] at hev
    replace hev : some (applyLimit stmt.limitClause base) = some out := hev
    injection hev with hev2
    rw [hlim] at hev2
    replace hev2 : base.take v.toNat = out := hev2
    rw [← hev2, List.length_take]
    exact min_le_left _ _

/-- C8: the request's limit field defaults to 1000 when absent from the
constructed request; a caller-supplied zero or null limit attaches no limit
clause at all; any other supplied value becomes the statement's limit clause
and bounds the cardinality of the evaluation result. -/
theorem C8_limit_behavior (db : DB) (st : SchemaState) (req : QueryRequest)
    (stmt : Stmt) (st' : SchemaState)
    (hc : compileQuery db st req = (.ok stmt, st')) :
    (∀ t, ({ table := t } : QueryRequest).limit = some 1000) ∧
    ((req.limit = none ∨ req.limit = some 0) → stmt.limitClause = none) ∧
    (∀ v, req.limit = some v → v ≠ 0 → stmt.limitClause = some v) ∧
    (∀ v rows out, stmt.limitClause = some v → evalStmt stmt rows = some out →
      out.length ≤ v.toNat) := by
  obtain ⟨tbl, htbl, gcols, hg, scols, hs, clauses, hcl, hstmt⟩ :=
    compileQuery_ok_shape db st req stmt st' hc
  subst hstmt
  refine ⟨fun t => rfl, ?_, ?_, ?_⟩
  · rintro (hl | hl) <;> simp [intTruthy, hl]
  · intro v hl hv
    simp [intTruthy, hl, hv]
  · intro v rows out hlim hev
    exact evalStmt_limit_bound _ v rows out hlim hev

/-- C8 (witness): a freshly constructed request defaults to limit 1000; the
fixture request with limit 2 compiles to a statement with limit clause 2, and
its evaluation result over the fixture rows has at most 2 rows. -/
theorem C8_limit_behavior_witness :
    ({ table := "x" } : QueryRequest).limit = some 1000 ∧
    wLimStmt.limitClause = some 2 ∧
    ([[("count", OutVal.s (.int 3))]] : List OutRow).length ≤ (2 : Int).toNat := by
  have h := C8_limit_behavior wDB wState wLimReq wLimStmt wState1 (by rfl)
  exact ⟨h.1 "x", h.2.2.1 2 rfl (by decide),
    h.2.2.2 2 wRows [[("count", OutVal.s (.int 3))]] rfl (by rfl)⟩

end Nola
